import Mathlib

/-!
Shallow embedding of the Nonslip lead-generation pipeline.

Python dict-based lead records are modelled as a structure whose fields are
all `Option String`: `none` models an absent dictionary key, `some v` a key
bound to the string `v`.  `lead.get('k', d)` is `(l.k).getD d`, and Python's
structural dict equality is the derived `DecidableEq`.  In-place dict
mutation (`lead['k'] = v`) is modelled by explicit record updates; functions
that mutate their input leads get a companion definition describing the
final state of the input list.  Network effects are modelled by passing the
outcome of each HTTP request as an explicit argument: `Except.ok r` is a
successful fetch yielding parsed data `r`, `Except.error e` is a request
that raised an exception with message `e`.
-/

/-- A lead / permit / incident record: one Python dict.  Every field is an
optional string; `none` means the key is absent from the dict. -/
structure Lead where
  source : Option String := none
  title : Option String := none
  description : Option String := none
  url : Option String := none
  date : Option String := none
  published_date : Option String := none
  search_query : Option String := none
  search_month : Option String := none
  type : Option String := none
  company : Option String := none
  category : Option String := none
  state : Option String := none
  name : Option String := none
  address : Option String := none
  city : Option String := none
  county : Option String := none
  industry : Option String := none
  phone : Option String := none
  website : Option String := none
  project_type : Option String := none
  value : Option String := none
  matched_keyword : Option String := none
  priority : Option String := none
  violations : Option String := none
  hazards : Option String := none
  match_reason : Option String := none
  deriving DecidableEq, Repr

/-- Python `str.lower()` (ASCII case folding, as applied to the data here). -/
def pyLower (s : String) : String := String.mk (s.data.map Char.toLower)

/-- Auxiliary for the substring test: is `a` an initial segment of `b`? -/
def prefixB : List Char → List Char → Bool
  | [], _ => true
  | _ :: _, [] => false
  | a :: as, b :: bs => a == b && prefixB as bs

/-- Auxiliary for the substring test: does `n` occur contiguously in the
haystack? -/
def subListB (n : List Char) : List Char → Bool
  | [] => prefixB n []
  | b :: bs => prefixB n (b :: bs) || subListB n bs

/-- Python `needle in hay` for strings: contiguous substring test. -/
def strIn (needle hay : String) : Bool := subListB needle.data hay.data

/-- Propositional version of the substring test. -/
def containsStr (needle hay : String) : Prop := needle.data <:+: hay.data

theorem prefixB_iff (a : List Char) : ∀ b, prefixB a b = true ↔ a <+: b := by
  induction a with
  | nil => intro b; simp [prefixB]
  | cons x as ih =>
    intro b
    cases b with
    | nil => simp [prefixB]
    | cons y bs =>
      simp only [prefixB, Bool.and_eq_true, beq_iff_eq, ih]
      constructor
      · rintro ⟨rfl, t, rfl⟩
        exact ⟨t, rfl⟩
      · rintro ⟨t, ht⟩
        injection ht with h1 h2
        exact ⟨h1, t, h2⟩

theorem subListB_iff (n : List Char) : ∀ h, subListB n h = true ↔ n <:+: h := by
  intro h
  induction h with
  | nil =>
    simp only [subListB, prefixB_iff]
    constructor
    · rintro ⟨t, ht⟩
      exact ⟨[], t, by simpa using ht⟩
    · rintro ⟨s, t, hst⟩
      rcases List.append_eq_nil.mp hst with ⟨h1, h2⟩
      rcases List.append_eq_nil.mp h1 with ⟨rfl, rfl⟩
      exact ⟨[], by simp⟩
  | cons b bs ih =>
    simp only [subListB, Bool.or_eq_true, prefixB_iff, ih]
    constructor
    · rintro (⟨t, ht⟩ | ⟨s, t, hst⟩)
      · exact ⟨[], t, by simpa using ht⟩
      · exact ⟨b :: s, t, by simp [hst]⟩
    · rintro ⟨s, t, hst⟩
      cases s with
      | nil => exact Or.inl ⟨t, by simpa using hst⟩
      | cons x s' =>
        injection hst with h1 h2
        exact Or.inr ⟨s', t, h2⟩

/-- The Boolean substring test decides the propositional one. -/
theorem strIn_iff (n h : String) : strIn n h = true ↔ containsStr n h :=
  subListB_iff n.data h.data

instance (n h : String) : Decidable (containsStr n h) :=
  decidable_of_iff (strIn n h = true) (strIn_iff n h)

/-- Python `str.title()` on the single lowercase words it is applied to:
uppercase the first letter of each alphabetic run, lowercase the rest. -/
def pyTitleAux : Bool → List Char → List Char
  | _, [] => []
  | prevAlpha, c :: cs =>
    (if c.isAlpha && !prevAlpha then c.toUpper else if c.isAlpha then c.toLower else c)
      :: pyTitleAux c.isAlpha cs

/-- Python `str.title()`. -/
def pyTitle (s : String) : String := String.mk (pyTitleAux false s.data)

/-- Python `str.strip()` restricted to whitespace. -/
def pyStrip (s : String) : String :=
  String.mk (((s.data.dropWhile Char.isWhitespace).reverse.dropWhile Char.isWhitespace).reverse)

/-- Python truthiness of an optional string value: absent keys and empty
strings are falsy. -/
def truthy : Option String → Bool
  | none => false
  | some s => !s.isEmpty

/-- First element of the keyword list whose lowercase form is a substring of
`text`; this is the `for keyword in KEYWORDS: if keyword.lower() in text`
loop shared by all the industry/county filters. -/
def findKeyword : List String → String → Option String
  | [], _ => none
  | k :: ks, text => if strIn (pyLower k) text then some k else findKeyword ks text

/-- First element of a (lowercase) city list that is a substring of `text`;
the `for city in city_list: if city in text` loop (no lowercasing). -/
def findCity : List String → String → Option String
  | [], _ => none
  | c :: cs, text => if strIn c text then some c else findCity cs text

namespace Historical

/-- `TARGET_COUNTIES` of historical_data_collector.py. -/
def TARGET_COUNTIES : List String := ["Middlesex", "Norfolk", "Worcester"]

/-- `TARGET_INDUSTRIES` of historical_data_collector.py. -/
def TARGET_INDUSTRIES : List String :=
  ["restaurant", "food service", "dining", "cafe", "bar",
   "healthcare", "hospital", "medical center", "clinic", "health",
   "school", "university", "college", "education", "academy",
   "hotel", "motel", "resort", "lodging", "inn",
   "country club", "golf club", "club",
   "assisted living", "nursing home", "senior living", "retirement", "55+",
   "fitness center", "gym", "health club", "wellness"]

/-- The `cities` dict literal of `filter_by_target_counties` (Python dicts
preserve insertion order, so iteration order is the literal order). -/
def cities : List (String × List String) :=
  [("Middlesex", ["cambridge", "lowell", "newton", "somerville", "framingham",
                  "waltham", "malden", "medford"]),
   ("Norfolk", ["quincy", "brookline", "weymouth", "needham", "milton", "braintree"]),
   ("Worcester", ["worcester", "leominster", "fitchburg", "shrewsbury", "marlborough"])]

/-- The combined lowercase text of `filter_by_target_industries`:
`" ".join([title, description, search_query]).lower()`. -/
def industryText (l : Lead) : String :=
  pyLower ((l.title.getD "") ++ " " ++ (l.description.getD "") ++ " " ++ (l.search_query.getD ""))

/-- `HistoricalDataCollector.filter_by_target_industries`: keep a lead iff
some target keyword matches, stamping `matched_keyword` with the first
matching keyword (the returned list shares the mutated records). -/
def filter_by_target_industries : List Lead → List Lead
  | [] => []
  | l :: ls =>
    match findKeyword TARGET_INDUSTRIES (industryText l) with
    | some k => { l with matched_keyword := some k } :: filter_by_target_industries ls
    | none => filter_by_target_industries ls

/-- Final state of one input record of `filter_by_target_industries` after
the call: the keyword stamp is an in-place dict mutation. -/
def stampIndustry (l : Lead) : Lead :=
  match findKeyword TARGET_INDUSTRIES (industryText l) with
  | some k => { l with matched_keyword := some k }
  | none => l

/-- Final state of the whole input list of `filter_by_target_industries`. -/
def industryInputAfter (leads : List Lead) : List Lead := leads.map stampIndustry

/-- The combined lowercase text of `filter_by_target_counties`:
`" ".join([title, description]).lower()`. -/
def geoText (l : Lead) : String :=
  pyLower ((l.title.getD "") ++ " " ++ (l.description.getD ""))

/-- The county-name loop of `filter_by_target_counties`: stamp `county` with
the first county whose lowercase name occurs in the text and append the lead
(flag `true`) unconditionally. -/
def countyStamp (l : Lead) : Lead × Bool :=
  match findKeyword TARGET_COUNTIES (geoText l) with
  | some c => ({ l with county := some c }, true)
  | none => (l, false)

/-- The city loop of `filter_by_target_counties` for one lead.  `prev` holds
the final values of the records appended for earlier leads, `ap` says
whether the current record has already been appended (Python's
`lead not in filtered` is true for the lead object itself once appended).
The inner `break` leaves only the per-county city list, so iteration
continues into later counties, each match overwriting `county`/`city`. -/
def cityLoop (prev : List Lead) (text : String) :
    List (String × List String) → Lead → Bool → Lead × Bool
  | [], l, ap => (l, ap)
  | (cnty, cl) :: rest, l, ap =>
    match findCity cl text with
    | none => cityLoop prev text rest l ap
    | some c =>
      cityLoop prev text rest { l with county := some cnty, city := some (pyTitle c) }
        (ap || !(decide ({ l with county := some cnty, city := some (pyTitle c) } ∈ prev)))

/-- Processing of a single lead by `filter_by_target_counties`: the final
state of the record and whether it was appended to the output. -/
def processLead (prev : List Lead) (l : Lead) : Lead × Bool :=
  cityLoop prev (geoText l) cities (countyStamp l).1 (countyStamp l).2

/-- The lead-by-lead loop of `filter_by_target_counties`; `prev` is the
`filtered` list built so far (elements already at their final values, since
earlier leads are no longer mutated). -/
def countyGo (prev : List Lead) : List Lead → List Lead
  | [] => []
  | l :: ls =>
    if (processLead prev l).2 then
      (processLead prev l).1 :: countyGo (prev ++ [(processLead prev l).1]) ls
    else countyGo prev ls

/-- `HistoricalDataCollector.filter_by_target_counties`. -/
def filter_by_target_counties (leads : List Lead) : List Lead := countyGo [] leads

/-- The pure mutation effect of the city loop on a record (the appended/not
bookkeeping does not feed back into the stamps). -/
def cityStamp (text : String) : List (String × List String) → Lead → Lead
  | [], l => l
  | (cnty, cl) :: rest, l =>
    match findCity cl text with
    | none => cityStamp text rest l
    | some c => cityStamp text rest { l with county := some cnty, city := some (pyTitle c) }

/-- Final state of one input record of `filter_by_target_counties` after the
call (county/city stamps are in-place dict mutations, applied whether or not
the record is appended). -/
def geoFinal (l : Lead) : Lead := cityStamp (geoText l) cities (countyStamp l).1

/-- Some configured city occurs in the text. -/
def anyCityT (text : String) (table : List (String × List String)) : Bool :=
  table.any (fun e => e.2.any (fun c => strIn c text))

/-- The keep-condition of the geography filter on a text: a configured
county name occurs, or a city of the lookup table occurs. -/
def geoCondT (text : String) : Bool :=
  (findKeyword TARGET_COUNTIES text).isSome || anyCityT text cities

/-- The keep-condition of the geography filter on a lead. -/
def geoCond (l : Lead) : Bool := geoCondT (geoText l)

/-- The city match that determines the final `county`/`city` stamps: the
first matching city of the last county (in table iteration order) that has
a matching city. -/
def lastCityMatch (text : String) : List (String × List String) → Option (String × String)
  | [] => none
  | (cnty, cl) :: rest =>
    match lastCityMatch text rest with
    | some r => some r
    | none => (findCity cl text).map (fun c => (cnty, c))

end Historical

namespace Monitor

/-- `TARGET_INDUSTRIES` of lead_monitor.py. -/
def TARGET_INDUSTRIES : List String :=
  ["restaurant", "food service", "healthcare", "hospital", "school",
   "university", "college", "hotel", "country club", "assisted living",
   "nursing home", "senior living", "55+", "fitness center", "gym"]

/-- The combined lowercase text of `LeadMonitor.filter_by_industry`:
`f"{name} {description} {industry}".lower()`. -/
def monitorText (d : Lead) : String :=
  pyLower ((d.name.getD "") ++ " " ++ (d.description.getD "") ++ " " ++ (d.industry.getD ""))

/-- `LeadMonitor.filter_by_industry`: keep an item iff some target keyword
matches; the item is appended unchanged (no `matched_keyword` stamp). -/
def filter_by_industry : List Lead → List Lead
  | [] => []
  | d :: ds =>
    if (findKeyword TARGET_INDUSTRIES (monitorText d)).isSome
    then d :: filter_by_industry ds
    else filter_by_industry ds

/-- The `priority_class` of `LeadMonitor._format_permit_html`. -/
def priorityClass (p : Lead) : String := if truthy p.priority then "priority" else ""

/-- The conditional Phone line of `_format_permit_html`: rendered only when
`permit.get('phone')` is truthy, otherwise the empty string. -/
def phoneDiv (p : Lead) : String :=
  if truthy p.phone then
    "<div class=\"field\"><span class=\"label\">" ++ "Phone:</span> " ++ p.phone.getD "N/A" ++ "</div>"
  else ""

/-- The conditional Website line of `_format_permit_html`. -/
def websiteDiv (p : Lead) : String :=
  if truthy p.website then
    "<div class=\"field\"><span class=\"label\">Website:</span> <a href=\"" ++
      p.website.getD "" ++ "\">" ++ p.website.getD "" ++ "</a></div>"
  else ""

/-- `LeadMonitor._format_permit_html`: the per-permit HTML block (the
f-string is translated as the concatenation of its literal chunks and
interpolated values). -/
def formatPermitHtml (p : Lead) : String :=
  "\n        <div class=\"lead " ++ priorityClass p ++
  "\">\n            <div class=\"field\"><span class=\"label\">" ++
  "Business:</span> " ++ p.name.getD "N/A" ++
  "</div>\n            <div class=\"field\"><span class=\"label\">" ++
  "Address:</span> " ++ p.address.getD "N/A" ++
  "</div>\n            <div class=\"field\"><span class=\"label\">" ++
  "City:</span> " ++ p.city.getD "N/A" ++ ", " ++ p.county.getD "N/A" ++
  " County" ++ "</div>\n            <div class=\"field\"><span class=\"label\">" ++
  "Project Type:</span> " ++ p.project_type.getD "N/A" ++
  "</div>\n            <div class=\"field\"><span class=\"label\">" ++
  "Permit Date:</span> " ++ p.date.getD "N/A" ++
  "</div>\n            <div class=\"field\"><span class=\"label\">" ++
  "Industry:</span> " ++ p.industry.getD "N/A" ++
  "</div>\n            " ++ phoneDiv p ++ "\n            " ++ websiteDiv p ++
  "\n            <div class=\"field\"><span class=\"label\">" ++
  "Estimated Value:</span> $" ++ p.value.getD "N/A" ++
  "</div>\n        </div>\n        "

/-- Outcome of `LeadMonitor.send_email`: either the SMTP send succeeded, or
the rendered report was written to the backup file with the given content. -/
inductive EmailOutcome
  | sent
  | savedToFile (content : String)
  deriving DecidableEq, Repr

/-- `LeadMonitor.send_email`: `gmailAppPassword` is the environment
variable (absent when unset), `smtp` is the SMTP transport applied to the
message content (`Except.error` models a raised SMTP exception). -/
def send_email (gmailAppPassword : Option String) (smtp : String → Except String Unit)
    (htmlContent : String) : EmailOutcome :=
  match gmailAppPassword with
  | none => .savedToFile htmlContent
  | some _ =>
    match smtp htmlContent with
    | .ok _ => .sent
    | .error _ => .savedToFile htmlContent

/-- One CSV row of `LeadMonitor.save_to_csv`. -/
structure CsvRow where
  date_found : String
  type : String
  name : Option String := none
  address : Option String := none
  city : Option String := none
  county : Option String := none
  industry : Option String := none
  phone : Option String := none
  website : Option String := none
  details : Option String := none
  priority : String
  deriving DecidableEq, Repr

/-- The permit row of `save_to_csv` (priority hard-coded to Medium). -/
def permitRow (today : String) (p : Lead) : CsvRow :=
  { date_found := today, type := "Permit", name := p.name, address := p.address,
    city := p.city, county := p.county, industry := p.industry, phone := p.phone,
    website := p.website, details := p.project_type, priority := "Medium" }

/-- The OSHA-incident row of `save_to_csv` (priority hard-coded to High). -/
def incidentRow (today : String) (i : Lead) : CsvRow :=
  { date_found := today, type := "OSHA Incident", name := i.name, address := i.address,
    city := i.city, county := i.county, industry := i.industry, phone := i.phone,
    website := i.website, details := i.description, priority := "High" }

/-- `LeadMonitor.save_to_csv`: all permit rows followed by all incident rows. -/
def save_to_csv (today : String) (permits osha_incidents : List Lead) : List CsvRow :=
  permits.map (permitRow today) ++ osha_incidents.map (incidentRow today)

/-- `LeadMonitor.search_ma_permits`: the per-city loop; each city request is
wrapped in its own try/except, a raised exception is caught, printed (one
warning counted) and the loop continues with the next city. -/
def permitsGo : List (String × Except String (List Lead)) → List Lead × Nat
  | [] => ([], 0)
  | (_, Except.ok ps) :: rest =>
    let r := permitsGo rest
    (ps ++ r.1, r.2)
  | (_, Except.error _) :: rest =>
    let r := permitsGo rest
    (r.1, r.2 + 1)

/-- `LeadMonitor.search_ma_permits` over the given per-city fetch outcomes:
returns the accumulated permits and the number of warnings printed. -/
def search_ma_permits (cityFetches : List (String × Except String (List Lead))) :
    List Lead × Nat := permitsGo cityFetches

end Monitor

namespace Production

/-- One parsed RSS `<item>` of the Google News feed; `none` models a
missing child element. -/
structure RssItem where
  title : Option String := none
  link : Option String := none
  pubDate : Option String := none
  description : Option String := none
  deriving DecidableEq, Repr

/-- The lead dict built for one RSS item by
`ProductionLeadMonitor.search_google_news` (missing elements become `""`).
No `priority` key is ever set on a news lead. -/
def newsLead (query : String) (it : RssItem) : Lead :=
  { source := some "Google News", title := some (it.title.getD ""),
    description := some (it.description.getD ""), url := some (it.link.getD ""),
    date := some (it.pubDate.getD ""), search_query := some query,
    type := some "News Mention" }

/-- The query loop of `search_google_news`.  The whole loop body sits inside
one try/except, so the first raised exception aborts the remaining queries;
the already-accumulated leads are returned and one warning is printed
(flag `true`).  A successful fetch contributes its top 5 items. -/
def sgnGo : List (String × Except String (List RssItem)) → List Lead → List Lead × Bool
  | [], acc => (acc, false)
  | (q, Except.ok items) :: rest, acc => sgnGo rest (acc ++ (items.take 5).map (newsLead q))
  | (_, Except.error _) :: _, acc => (acc, true)

/-- `ProductionLeadMonitor.search_google_news` over the given per-query
fetch outcomes: the collected leads and whether an error warning was
printed. -/
def search_google_news (fetches : List (String × Except String (List RssItem))) :
    List Lead × Bool := sgnGo fetches []

/-- One `severeinjury-item` div of the OSHA page: the optional `<strong>`
company text and the full `get_text()` of the div. -/
structure OshaDiv where
  strong : Option String := none
  text : String := ""
  deriving DecidableEq, Repr

/-- The incident dict built for one div by
`ProductionLeadMonitor.search_osha_data`. -/
def oshaIncident (st : String) (d : OshaDiv) : Lead :=
  { source := some "OSHA", company := some ((d.strong.map pyStrip).getD ""),
    description := some d.text, type := some "Safety Incident",
    priority := some "High", state := some st }

/-- `ProductionLeadMonitor.search_osha_data`: `resp` is the parsed list of
incident divs of a successful (status-200) response, `none` a failed or
non-200 request.  The first 20 divs are processed; an incident is kept iff
its text contains `'MA'` or `'Massachusetts'` (case-sensitive). -/
def search_osha_data (st : String) (resp : Option (List OshaDiv)) : List Lead :=
  match resp with
  | none => []
  | some divs =>
    (divs.take 20).filterMap (fun d =>
      if strIn "MA" d.text || strIn "Massachusetts" d.text
      then some (oshaIncident st d) else none)

/-- The combined lowercase text of
`ProductionLeadMonitor.filter_by_target_industries`:
`" ".join([title, description, company, category]).lower()`. -/
def productionText (l : Lead) : String :=
  pyLower ((l.title.getD "") ++ " " ++ (l.description.getD "") ++ " " ++
    (l.company.getD "") ++ " " ++ (l.category.getD ""))

/-- `ProductionLeadMonitor.filter_by_target_industries`: keep a lead iff
some keyword matches, stamping `matched_keyword` with the first match. -/
def filter_by_target_industries (leads : List Lead) (keywords : List String) : List Lead :=
  match leads with
  | [] => []
  | l :: ls =>
    match findKeyword keywords (productionText l) with
    | some k => { l with matched_keyword := some k } :: filter_by_target_industries ls keywords
    | none => filter_by_target_industries ls keywords

/-- Final state of one input record of the production industry filter. -/
def stampProduction (keywords : List String) (l : Lead) : Lead :=
  match findKeyword keywords (productionText l) with
  | some k => { l with matched_keyword := some k }
  | none => l

/-- Final state of the whole input list of the production industry filter. -/
def productionInputAfter (keywords : List String) (leads : List Lead) : List Lead :=
  leads.map (stampProduction keywords)

/-- The `target_keywords` list of `run_full_scan`. -/
def target_keywords : List String :=
  ["restaurant", "dining", "food service",
   "hospital", "healthcare", "medical center", "clinic",
   "school", "university", "college", "education",
   "hotel", "motel", "resort", "lodging",
   "country club", "golf club",
   "assisted living", "nursing home", "senior living", "retirement",
   "fitness center", "gym", "health club", "wellness center"]

/-- `ProductionLeadMonitor.run_full_scan`: Google News collection, then OSHA
collection, then the industry filter over the concatenation. -/
def run_full_scan (newsFetches : List (String × Except String (List RssItem)))
    (oshaResp : Option (List OshaDiv)) : List Lead :=
  filter_by_target_industries
    ((search_google_news newsFetches).1 ++ search_osha_data "MA" oshaResp)
    target_keywords

/-- The per-lead OSHA entry of `format_leads_for_email` (the f-string
appended for each incident, translated as the concatenation of its literal
chunks and interpolated values): only the company — with fallback
`Unknown Business` — and the description — with fallback `N/A` — are
rendered. -/
def oshaLeadHtml (lead : Lead) : String :=
  "\n            <div class=\"lead high-priority\">\n                " ++
  "<span class=\"source-tag priority-tag\">OSHA INCIDENT</span>\n                " ++
  "<div class=\"lead-title\">" ++ lead.company.getD "Unknown Business" ++
  "</div>\n                <div class=\"lead-detail\"><span class=\"label\">" ++
  "Description:</span> " ++ lead.description.getD "N/A" ++
  "</div>\n                <div class=\"lead-detail\" style=\"color: #e74c3c; " ++
  "font-weight: bold; margin-top: 10px;\">\n                    " ++
  "⚠️ ACTION: Contact immediately - recent safety incident indicates need " ++
  "for slip prevention solutions\n                </div>\n            </div>\n            "

/-- The per-lead news entry of `format_leads_for_email`: only the title,
description, date and matched keyword — each with fallback `N/A` — and the
link — with fallback `#` — are rendered; no other lead field appears. -/
def newsLeadHtml (lead : Lead) : String :=
  "\n            <div class=\"lead\">\n                " ++
  "<span class=\"source-tag\">NEWS</span>\n                " ++
  "<div class=\"lead-title\">" ++ lead.title.getD "N/A" ++
  "</div>\n                <div class=\"lead-detail\"><span class=\"label\">" ++
  "Description:</span> " ++ lead.description.getD "N/A" ++
  "</div>\n                <div class=\"lead-detail\"><span class=\"label\">" ++
  "Date:</span> " ++ lead.date.getD "N/A" ++
  "</div>\n                <div class=\"lead-detail\"><span class=\"label\">" ++
  "Industry Match:</span> " ++ lead.matched_keyword.getD "N/A" ++
  "</div>\n                <div class=\"lead-detail\"><a " ++
  "href=\"" ++ lead.url.getD "#" ++
  "\">Read full article →</a></div>\n            </div>\n            "

/-- The `html +=` loop over a lead list: concatenation of the per-lead
entries in order. -/
def htmlConcat (f : Lead → String) : List Lead → String
  | [] => ""
  | l :: ls => f l ++ htmlConcat f ls

/-- The OSHA block of `format_leads_for_email`: the entries of the leads
with source `OSHA`, or the no-incidents paragraph when there are none
(Python's `if osha_leads:` truthiness). -/
def oshaSection (leads : List Lead) : String :=
  if (leads.filter (fun l => decide (l.source = some "OSHA"))).isEmpty then
    "<p>No OSHA incidents found today.</p>"
  else htmlConcat oshaLeadHtml (leads.filter (fun l => decide (l.source = some "OSHA")))

/-- The news block of `format_leads_for_email`: the section heading, then
the entries of the leads with source `Google News`, or the no-mentions
paragraph when there are none. -/
def newsSection (leads : List Lead) : String :=
  "<h2>📰 New Business Activities</h2>" ++
  (if (leads.filter (fun l => decide (l.source = some "Google News"))).isEmpty then
    "<p>No news mentions found today.</p>"
  else htmlConcat newsLeadHtml (leads.filter (fun l => decide (l.source = some "Google News"))))

end Production

namespace OSHAScraper

/-- `slip_fall_keywords` of `OSHAScraper.filter_slip_fall_incidents`. -/
def slip_fall_keywords : List String :=
  ["slip", "trip", "fall", "floor", "walking", "surface",
   "wet", "housekeeping", "guardrail", "stair", "ladder"]

/-- The combined lowercase text of `filter_slip_fall_incidents`:
`f"{violations} {hazards}".lower()`. -/
def incidentText (i : Lead) : String :=
  pyLower ((i.violations.getD "") ++ " " ++ (i.hazards.getD ""))

/-- `OSHAScraper.filter_slip_fall_incidents`: keep an incident iff some
slip/fall keyword occurs in its text, stamping priority High and a match
reason. -/
def filter_slip_fall_incidents : List Lead → List Lead
  | [] => []
  | i :: is' =>
    if slip_fall_keywords.any (fun k => strIn k (incidentText i)) then
      { i with priority := some "High",
               match_reason := some "Slip/trip/fall related incident" }
        :: filter_slip_fall_incidents is'
    else filter_slip_fall_incidents is'

end OSHAScraper

/-! Helper lemmas about the shared keyword/city loops. -/

theorem findKeyword_first {ks : List String} {t k : String}
    (h : findKeyword ks t = some k) :
    ∃ pre post, ks = pre ++ k :: post ∧ strIn (pyLower k) t = true ∧
      ∀ k' ∈ pre, strIn (pyLower k') t = false := by
  induction ks with
  | nil => simp [findKeyword] at h
  | cons a ks ih =>
    rw [findKeyword] at h
    by_cases hc : strIn (pyLower a) t = true
    · rw [if_pos hc] at h
      injection h with h
      subst h
      exact ⟨[], ks, rfl, hc, by simp⟩
    · rw [if_neg hc] at h
      rcases ih h with ⟨pre, post, he, h1, h2⟩
      refine ⟨a :: pre, post, by rw [he]; rfl, h1, ?_⟩
      intro k' hk'
      rcases List.mem_cons.mp hk' with rfl | hk'
      · exact Bool.eq_false_iff.mpr hc
      · exact h2 k' hk'

theorem findKeyword_some_mem {ks : List String} {t k : String}
    (h : findKeyword ks t = some k) : k ∈ ks ∧ strIn (pyLower k) t = true := by
  rcases findKeyword_first h with ⟨pre, post, he, h1, _⟩
  exact ⟨he ▸ List.mem_append_right pre (List.mem_cons_self k post), h1⟩

theorem findKeyword_isSome {ks : List String} {t : String} :
    (findKeyword ks t).isSome = true ↔ ∃ k ∈ ks, strIn (pyLower k) t = true := by
  induction ks with
  | nil => simp [findKeyword]
  | cons a ks ih =>
    rw [findKeyword]
    by_cases hc : strIn (pyLower a) t = true
    · simp [hc]
    · simp only [if_neg hc, ih]
      constructor
      · rintro ⟨k, hk, hs⟩
        exact ⟨k, List.mem_cons_of_mem a hk, hs⟩
      · rintro ⟨k, hk, hs⟩
        rcases List.mem_cons.mp hk with rfl | hk
        · exact absurd hs hc
        · exact ⟨k, hk, hs⟩

theorem findCity_some_mem {cl : List String} {t c : String}
    (h : findCity cl t = some c) : c ∈ cl ∧ strIn c t = true := by
  induction cl with
  | nil => simp [findCity] at h
  | cons a cl ih =>
    rw [findCity] at h
    by_cases hc : strIn a t = true
    · rw [if_pos hc] at h
      injection h with h
      subst h
      exact ⟨List.mem_cons_self a cl, hc⟩
    · rw [if_neg hc] at h
      rcases ih h with ⟨h1, h2⟩
      exact ⟨List.mem_cons_of_mem a h1, h2⟩

theorem findCity_none_any {cl : List String} {t : String} :
    findCity cl t = none ↔ cl.any (fun c => strIn c t) = false := by
  induction cl with
  | nil => simp [findCity]
  | cons a cl ih =>
    rw [findCity]
    by_cases hc : strIn a t = true
    · simp [hc]
    · simp [if_neg hc, ih, Bool.eq_false_iff.mpr hc]

theorem findCity_any {cl : List String} {t c : String} (h : findCity cl t = some c) :
    cl.any (fun x => strIn x t) = true := by
  rcases findCity_some_mem h with ⟨h1, h2⟩
  exact List.any_eq_true.mpr ⟨c, h1, h2⟩

namespace Historical

theorem countyStamp_snd (l : Lead) :
    (countyStamp l).2 = (findKeyword TARGET_COUNTIES (geoText l)).isSome := by
  unfold countyStamp
  cases findKeyword TARGET_COUNTIES (geoText l) <;> rfl

theorem countyStamp_fst_of_none {l : Lead}
    (h : findKeyword TARGET_COUNTIES (geoText l) = none) : (countyStamp l).1 = l := by
  unfold countyStamp
  rw [h]

theorem cityLoop_fst (prev : List Lead) (text : String) :
    ∀ (table : List (String × List String)) (l : Lead) (ap : Bool),
      (cityLoop prev text table l ap).1 = cityStamp text table l := by
  intro table
  induction table with
  | nil => intro l ap; rfl
  | cons e rest ih =>
    intro l ap
    rcases e with ⟨cnty, cl⟩
    rw [cityLoop, cityStamp]
    cases findCity cl text <;> simp [ih]

theorem cityLoop_snd_mono (prev : List Lead) (text : String) :
    ∀ (table : List (String × List String)) (l : Lead),
      (cityLoop prev text table l true).2 = true := by
  intro table
  induction table with
  | nil => intro l; rfl
  | cons e rest ih =>
    intro l
    rcases e with ⟨cnty, cl⟩
    rw [cityLoop]
    cases findCity cl text <;> simp [ih]

theorem cityLoop_snd_false_ap {prev : List Lead} {text : String}
    {table : List (String × List String)} {l : Lead} {ap : Bool}
    (h : (cityLoop prev text table l ap).2 = false) : ap = false := by
  cases hap : ap
  · rfl
  · rw [hap] at h
    rw [cityLoop_snd_mono] at h
    exact absurd h (by simp)

theorem anyCityT_cons {text : String} {cnty : String} {cl : List String}
    {rest : List (String × List String)} :
    anyCityT text ((cnty, cl) :: rest)
      = (cl.any (fun c => strIn c text) || anyCityT text rest) := by
  simp [anyCityT]

theorem cityStamp_id (text : String) :
    ∀ (table : List (String × List String)) (x : Lead),
      anyCityT text table = false → cityStamp text table x = x := by
  intro table
  induction table with
  | nil => intro x _; rfl
  | cons e rest ih =>
    intro x h
    rcases e with ⟨cnty, cl⟩
    rw [anyCityT_cons, Bool.or_eq_false_iff] at h
    rw [cityStamp, findCity_none_any.mpr h.1]
    exact ih x h.2

theorem cityLoop_snd_true_cases {prev : List Lead} {text : String} :
    ∀ {table : List (String × List String)} {l : Lead} {ap : Bool},
      (cityLoop prev text table l ap).2 = true →
        ap = true ∨ anyCityT text table = true := by
  intro table
  induction table with
  | nil => intro l ap h; exact Or.inl h
  | cons e rest ih =>
    intro l ap h
    rcases e with ⟨cnty, cl⟩
    rw [cityLoop] at h
    cases hfc : findCity cl text with
    | none =>
      rw [hfc] at h
      rcases ih h with h1 | h1
      · exact Or.inl h1
      · exact Or.inr (by rw [anyCityT_cons, h1, Bool.or_true])
    | some c =>
      exact Or.inr (by rw [anyCityT_cons, findCity_any hfc, Bool.true_or])

theorem cityLoop_snd_false_mem {prev : List Lead} {text : String} :
    ∀ {table : List (String × List String)} {l : Lead} {ap : Bool},
      (cityLoop prev text table l ap).2 = false → anyCityT text table = true →
        cityStamp text table l ∈ prev := by
  intro table
  induction table with
  | nil => intro l ap _ hany; simp [anyCityT] at hany
  | cons e rest ih =>
    intro l ap h hany
    rcases e with ⟨cnty, cl⟩
    rw [cityLoop] at h
    cases hfc : findCity cl text with
    | none =>
      rw [hfc] at h
      rw [anyCityT_cons, findCity_none_any.mp hfc, Bool.false_or] at hany
      simp only [cityStamp, hfc]
      exact ih h hany
    | some c =>
      rw [hfc] at h
      have hap' := cityLoop_snd_false_ap h
      rw [Bool.or_eq_false_iff] at hap'
      have hmem : { l with county := some cnty, city := some (pyTitle c) } ∈ prev := by
        have := hap'.2
        simpa using this
      simp only [cityStamp, hfc]
      cases hrest : anyCityT text rest with
      | true => exact ih h hrest
      | false =>
        rw [cityStamp_id text rest _ hrest]
        exact hmem

theorem processLead_fst (prev : List Lead) (l : Lead) :
    (processLead prev l).1 = geoFinal l := by
  unfold processLead geoFinal
  exact cityLoop_fst prev (geoText l) cities (countyStamp l).1 (countyStamp l).2

theorem processLead_snd_true {prev : List Lead} {l : Lead}
    (h : (processLead prev l).2 = true) : geoCond l = true := by
  unfold processLead at h
  rcases cityLoop_snd_true_cases h with h1 | h1
  · rw [countyStamp_snd] at h1
    unfold geoCond geoCondT
    rw [h1, Bool.true_or]
  · unfold geoCond geoCondT
    rw [h1, Bool.or_true]

theorem processLead_snd_false {prev : List Lead} {l : Lead}
    (h : (processLead prev l).2 = false) (hc : geoCond l = true) :
    geoFinal l ∈ prev := by
  unfold processLead at h
  have hap := cityLoop_snd_false_ap h
  rw [countyStamp_snd] at hap
  unfold geoCond geoCondT at hc
  cases hopt : findKeyword TARGET_COUNTIES (geoText l) with
  | some k => rw [hopt] at hap; simp at hap
  | none =>
    rw [hopt] at hc
    simp only [Option.isSome_none, Bool.false_or] at hc
    unfold geoFinal
    exact cityLoop_snd_false_mem h hc

theorem countyGo_mem_src :
    ∀ (ls : List Lead) (prev : List Lead) (v : Lead), v ∈ countyGo prev ls →
      ∃ l ∈ ls, v = geoFinal l ∧ geoCond l = true := by
  intro ls
  induction ls with
  | nil => intro prev v h; simp [countyGo] at h
  | cons a ls ih =>
    intro prev v h
    rw [countyGo] at h
    by_cases hr : (processLead prev a).2 = true
    · rw [if_pos hr] at h
      rcases List.mem_cons.mp h with rfl | h
      · exact ⟨a, List.mem_cons_self a ls,
          processLead_fst prev a, processLead_snd_true hr⟩
      · rcases ih _ _ h with ⟨l, hl, h1, h2⟩
        exact ⟨l, List.mem_cons_of_mem a hl, h1, h2⟩
    · rw [if_neg hr] at h
      rcases ih _ _ h with ⟨l, hl, h1, h2⟩
      exact ⟨l, List.mem_cons_of_mem a hl, h1, h2⟩

theorem countyGo_mem_tgt :
    ∀ (ls : List Lead) (prev : List Lead) (l : Lead), l ∈ ls → geoCond l = true →
      geoFinal l ∈ prev ∨ geoFinal l ∈ countyGo prev ls := by
  intro ls
  induction ls with
  | nil => intro prev l h; simp at h
  | cons a ls ih =>
    intro prev l hmem hc
    rcases List.mem_cons.mp hmem with rfl | hmem
    · by_cases hr : (processLead prev l).2 = true
      · right
        rw [countyGo, if_pos hr, ← processLead_fst prev l]
        exact List.mem_cons_self _ _
      · left
        exact processLead_snd_false (Bool.eq_false_iff.mpr hr) hc
    · by_cases hr : (processLead prev a).2 = true
      · rw [countyGo, if_pos hr]
        rcases ih (prev ++ [(processLead prev a).1]) l hmem hc with h1 | h1
        · rcases List.mem_append.mp h1 with h2 | h2
          · exact Or.inl h2
          · right
            rw [List.mem_singleton] at h2
            rw [h2]
            exact List.mem_cons_self _ _
        · right
          exact List.mem_cons_of_mem _ h1
      · rw [countyGo, if_neg hr]
        exact ih prev l hmem hc

theorem mem_filter_by_target_counties {leads : List Lead} {v : Lead} :
    v ∈ filter_by_target_counties leads ↔
      ∃ l ∈ leads, geoCond l = true ∧ v = geoFinal l := by
  constructor
  · intro h
    rcases countyGo_mem_src leads [] v h with ⟨l, hl, h1, h2⟩
    exact ⟨l, hl, h2, h1⟩
  · rintro ⟨l, hl, hc, rfl⟩
    rcases countyGo_mem_tgt leads [] l hl hc with h1 | h1
    · simp at h1
    · exact h1

theorem mem_filter_by_target_industries {leads : List Lead} {v : Lead} :
    v ∈ filter_by_target_industries leads ↔
      ∃ l ∈ leads, ∃ k, findKeyword TARGET_INDUSTRIES (industryText l) = some k ∧
        v = { l with matched_keyword := some k } := by
  induction leads with
  | nil => simp [filter_by_target_industries]
  | cons a ls ih =>
    rw [filter_by_target_industries]
    cases hf : findKeyword TARGET_INDUSTRIES (industryText a) with
    | some k =>
      constructor
      · intro h
        rcases List.mem_cons.mp h with rfl | h
        · exact ⟨a, List.mem_cons_self a ls, k, hf, rfl⟩
        · rcases ih.mp h with ⟨l, hl, k', h1, h2⟩
          exact ⟨l, List.mem_cons_of_mem a hl, k', h1, h2⟩
      · rintro ⟨l, hl, k', h1, h2⟩
        rcases List.mem_cons.mp hl with rfl | hl
        · rw [hf] at h1
          injection h1 with h1
          subst h1
          exact List.mem_cons.mpr (Or.inl h2)
        · exact List.mem_cons.mpr (Or.inr (ih.mpr ⟨l, hl, k', h1, h2⟩))
    | none =>
      rw [ih]
      constructor
      · rintro ⟨l, hl, k', h1, h2⟩
        exact ⟨l, List.mem_cons_of_mem a hl, k', h1, h2⟩
      · rintro ⟨l, hl, k', h1, h2⟩
        rcases List.mem_cons.mp hl with rfl | hl
        · rw [hf] at h1
          exact absurd h1 (by simp)
        · exact ⟨l, hl, k', h1, h2⟩

end Historical

namespace Historical

theorem cityStamp_changes (text : String) :
    ∀ (table : List (String × List String)) (l : Lead) (x y : Option String),
      { cityStamp text table l with county := x, city := y }
        = { l with county := x, city := y } := by
  intro table
  induction table with
  | nil => intro l x y; rfl
  | cons e rest ih =>
    intro l x y
    rcases e with ⟨cnty, cl⟩
    simp only [cityStamp]
    cases findCity cl text with
    | none => exact ih l x y
    | some c => exact ih { l with county := some cnty, city := some (pyTitle c) } x y

theorem countyStamp_changes (l : Lead) (x y : Option String) :
    { (countyStamp l).1 with county := x, city := y } = { l with county := x, city := y } := by
  unfold countyStamp
  cases findKeyword TARGET_COUNTIES (geoText l) <;> rfl

theorem geoFinal_changes (l : Lead) :
    { geoFinal l with county := l.county, city := l.city } = l := by
  unfold geoFinal
  rw [cityStamp_changes, countyStamp_changes]

theorem geoFinal_title (l : Lead) : (geoFinal l).title = l.title := by
  conv_rhs => rw [← geoFinal_changes l]

theorem geoFinal_description (l : Lead) : (geoFinal l).description = l.description := by
  conv_rhs => rw [← geoFinal_changes l]

theorem geoFinal_search_query (l : Lead) : (geoFinal l).search_query = l.search_query := by
  conv_rhs => rw [← geoFinal_changes l]

theorem geoFinal_matched_keyword (l : Lead) :
    (geoFinal l).matched_keyword = l.matched_keyword := by
  conv_rhs => rw [← geoFinal_changes l]

theorem geoText_geoFinal (l : Lead) : geoText (geoFinal l) = geoText l := by
  unfold geoText
  rw [geoFinal_title, geoFinal_description]

theorem industryText_geoFinal (l : Lead) : industryText (geoFinal l) = industryText l := by
  unfold industryText
  rw [geoFinal_title, geoFinal_description, geoFinal_search_query]

theorem lastCityMatch_none (text : String) :
    ∀ table : List (String × List String),
      lastCityMatch text table = none ↔ anyCityT text table = false := by
  intro table
  induction table with
  | nil => simp [lastCityMatch, anyCityT]
  | cons e rest ih =>
    rcases e with ⟨cnty, cl⟩
    rw [lastCityMatch, anyCityT_cons]
    cases hr : lastCityMatch text rest with
    | some r =>
      have h2 : anyCityT text rest = true := by
        cases hat : anyCityT text rest with
        | true => rfl
        | false => exact absurd (ih.mpr hat) (by rw [hr]; simp)
      simp [h2]
    | none =>
      cases hfc : findCity cl text with
      | some c =>
        simp [hfc, findCity_any hfc]
      | none =>
        simp [hfc, findCity_none_any.mp hfc, ih.mp hr]

theorem cityStamp_lastCityMatch (text : String) :
    ∀ (table : List (String × List String)) (l : Lead) (cnty c : String),
      lastCityMatch text table = some (cnty, c) →
        (cityStamp text table l).county = some cnty ∧
        (cityStamp text table l).city = some (pyTitle c) := by
  intro table
  induction table with
  | nil => intro l cnty c h; exact absurd h (by simp [lastCityMatch])
  | cons e rest ih =>
    intro l cnty c h
    rcases e with ⟨cnty', cl⟩
    rw [lastCityMatch] at h
    cases hr : lastCityMatch text rest with
    | some r =>
      rw [hr] at h
      injection h with h
      subst h
      simp only [cityStamp]
      cases findCity cl text with
      | none => exact ih l cnty c hr
      | some c' => exact ih _ cnty c hr
    | none =>
      rw [hr] at h
      simp only [Option.map_eq_some'] at h
      rcases h with ⟨c', hfc, hpair⟩
      injection hpair with h1 h2
      subst h1; subst h2
      simp only [cityStamp, hfc]
      rw [cityStamp_id text rest _ ((lastCityMatch_none text rest).mp hr)]
      exact ⟨rfl, rfl⟩

theorem lastCityMatch_mem (text : String) :
    ∀ (table : List (String × List String)) (cnty c : String),
      lastCityMatch text table = some (cnty, c) →
        ∃ cl, (cnty, cl) ∈ table ∧ c ∈ cl ∧ strIn c text = true := by
  intro table
  induction table with
  | nil => intro cnty c h; exact absurd h (by simp [lastCityMatch])
  | cons e rest ih =>
    intro cnty c h
    rcases e with ⟨cnty', cl⟩
    rw [lastCityMatch] at h
    cases hr : lastCityMatch text rest with
    | some r =>
      rw [hr] at h
      injection h with h
      subst h
      rcases ih cnty c hr with ⟨cl', h1, h2, h3⟩
      exact ⟨cl', List.mem_cons_of_mem _ h1, h2, h3⟩
    | none =>
      rw [hr] at h
      simp only [Option.map_eq_some'] at h
      rcases h with ⟨c', hfc, hpair⟩
      injection hpair with h1 h2
      subst h1; subst h2
      rcases findCity_some_mem hfc with ⟨h1, h2⟩
      exact ⟨cl, List.mem_cons_self _ _, h1, h2⟩

theorem lastCityMatch_isSome_of_any {text : String}
    {table : List (String × List String)} (h : anyCityT text table = true) :
    ∃ cnty c, lastCityMatch text table = some (cnty, c) := by
  cases hr : lastCityMatch text table with
  | none => exact absurd ((lastCityMatch_none text table).mp hr) (by rw [h]; simp)
  | some r =>
    rcases r with ⟨cnty, c⟩
    exact ⟨cnty, c, rfl⟩

end Historical

namespace Historical

theorem anyCityT_iff {text : String} {table : List (String × List String)} :
    anyCityT text table = true ↔ ∃ e ∈ table, ∃ c ∈ e.2, strIn c text = true := by
  simp [anyCityT, List.any_eq_true]

theorem geoCond_iff {l : Lead} :
    geoCond l = true ↔
      ((∃ cty ∈ TARGET_COUNTIES, strIn (pyLower cty) (geoText l) = true) ∨
       (∃ e ∈ cities, ∃ c ∈ e.2, strIn c (geoText l) = true)) := by
  unfold geoCond geoCondT
  rw [Bool.or_eq_true, findKeyword_isSome, anyCityT_iff]

theorem geoCond_of_mem {leads : List Lead} {l' : Lead}
    (h : l' ∈ filter_by_target_counties leads) : geoCond l' = true := by
  rcases mem_filter_by_target_counties.mp h with ⟨m, _, hc, rfl⟩
  show geoCondT (geoText (geoFinal m)) = true
  rw [geoText_geoFinal]
  exact hc

theorem cityStamp_mk (text : String) :
    ∀ (table : List (String × List String)) (l : Lead) (k : Option String),
      cityStamp text table { l with matched_keyword := k }
        = { cityStamp text table l with matched_keyword := k } := by
  intro table
  induction table with
  | nil => intro l k; rfl
  | cons e rest ih =>
    intro l k
    rcases e with ⟨cnty, cl⟩
    simp only [cityStamp]
    cases findCity cl text with
    | none => exact ih l k
    | some c => exact ih { l with county := some cnty, city := some (pyTitle c) } k

theorem geoText_mk (l : Lead) (k : Option String) :
    geoText { l with matched_keyword := k } = geoText l := rfl

theorem geoFinal_mk (l : Lead) (k : Option String) :
    geoFinal { l with matched_keyword := k } = { geoFinal l with matched_keyword := k } := by
  unfold geoFinal
  have e1 : countyStamp { l with matched_keyword := k }
      = ({ (countyStamp l).1 with matched_keyword := k }, (countyStamp l).2) := by
    unfold countyStamp
    rw [geoText_mk]
    cases findKeyword TARGET_COUNTIES (geoText l) <;> rfl
  rw [e1, geoText_mk]
  exact cityStamp_mk (geoText l) cities (countyStamp l).1 k

theorem geoCond_mk (l : Lead) (k : Option String) :
    geoCond { l with matched_keyword := k } = geoCond l := rfl

theorem industryText_mk_geo (l : Lead) (x y : Option String) :
    industryText { l with county := x, city := y } = industryText l := rfl

end Historical

/-- C5 (confirmed): running the industry filter then the geography filter
produces the same final set of leads as the reverse order: a lead value is
in the one composite output iff it is in the other.  (The two outputs can
differ as lists: see the geography filter's dedup guard; but as sets they
always agree.) -/
theorem c5_filter_order_commutes (leads : List Lead) (v : Lead) :
    v ∈ Historical.filter_by_target_counties (Historical.filter_by_target_industries leads) ↔
      v ∈ Historical.filter_by_target_industries (Historical.filter_by_target_counties leads) := by
  rw [Historical.mem_filter_by_target_counties, Historical.mem_filter_by_target_industries]
  constructor
  · rintro ⟨m, hm, hc, rfl⟩
    rcases Historical.mem_filter_by_target_industries.mp hm with ⟨l, hl, k, hk, rfl⟩
    refine ⟨Historical.geoFinal l,
      Historical.mem_filter_by_target_counties.mpr ⟨l, hl, ?_, rfl⟩, k, ?_, ?_⟩
    · rw [← Historical.geoCond_mk l (some k)]
      exact hc
    · rw [Historical.industryText_geoFinal]
      exact hk
    · exact Historical.geoFinal_mk l (some k)
  · rintro ⟨m, hm, k, hk, rfl⟩
    rcases Historical.mem_filter_by_target_counties.mp hm with ⟨l, hl, hc, rfl⟩
    refine ⟨{ l with matched_keyword := some k },
      Historical.mem_filter_by_target_industries.mpr ⟨l, hl, k, ?_, rfl⟩, ?_, ?_⟩
    · rw [Historical.industryText_geoFinal] at hk
      exact hk
    · rw [Historical.geoCond_mk]
      exact hc
    · exact (Historical.geoFinal_mk l (some k)).symm

/-- C3 (confirmed): a lead survives the geography filter iff a configured
county name occurs (case-insensitively) in its title+description text or a
city of the fixed city-to-county table occurs in that text (lead identity
is its text, since the filter enriches kept records with county/city
stamps); every output lead satisfies the county-or-city condition; and when
retention is caused by a city match (no county-name match), the record is
stamped with a matching city's county and the title-cased city name. -/
theorem c3_geography_filter :
    (∀ (leads : List Lead) (l : Lead), l ∈ leads →
      ((∃ l', l' ∈ Historical.filter_by_target_counties leads ∧
          l'.title = l.title ∧ l'.description = l.description) ↔
        ((∃ cty ∈ Historical.TARGET_COUNTIES, strIn (pyLower cty) (Historical.geoText l) = true) ∨
         (∃ e ∈ Historical.cities, ∃ c ∈ e.2, strIn c (Historical.geoText l) = true))))
    ∧ (∀ (leads : List Lead) (l' : Lead), l' ∈ Historical.filter_by_target_counties leads →
        ((∃ cty ∈ Historical.TARGET_COUNTIES, strIn (pyLower cty) (Historical.geoText l') = true) ∨
         (∃ e ∈ Historical.cities, ∃ c ∈ e.2, strIn c (Historical.geoText l') = true)))
    ∧ (∀ (prev : List Lead) (l : Lead),
        findKeyword Historical.TARGET_COUNTIES (Historical.geoText l) = none →
        (Historical.processLead prev l).2 = true →
        ∃ e ∈ Historical.cities, ∃ c ∈ e.2, strIn c (Historical.geoText l) = true ∧
          (Historical.processLead prev l).1.county = some e.1 ∧
          (Historical.processLead prev l).1.city = some (pyTitle c)) := by
  refine ⟨?_, ?_, ?_⟩
  · intro leads l hl
    constructor
    · rintro ⟨l', hmem, ht, hd⟩
      have hc' : Historical.geoCond l' = true := Historical.geoCond_of_mem hmem
      have he : Historical.geoText l' = Historical.geoText l := by
        unfold Historical.geoText
        rw [ht, hd]
      have hc : Historical.geoCond l = true := by
        unfold Historical.geoCond at hc' ⊢
        rw [← he]
        exact hc'
      exact Historical.geoCond_iff.mp hc
    · intro h
      have hc : Historical.geoCond l = true := Historical.geoCond_iff.mpr h
      rcases Historical.countyGo_mem_tgt leads [] l hl hc with h1 | h1
      · simp at h1
      · exact ⟨Historical.geoFinal l, h1, Historical.geoFinal_title l,
          Historical.geoFinal_description l⟩
  · intro leads l' hmem
    exact Historical.geoCond_iff.mp (Historical.geoCond_of_mem hmem)
  · intro prev l hnone hap
    unfold Historical.processLead at hap
    rcases Historical.cityLoop_snd_true_cases hap with h1 | h1
    · rw [Historical.countyStamp_snd, hnone] at h1
      exact absurd h1 (by simp)
    · rcases Historical.lastCityMatch_isSome_of_any h1 with ⟨cnty, c, hlast⟩
      rcases Historical.lastCityMatch_mem _ _ _ _ hlast with ⟨cl, hmem, hcmem, hstr⟩
      have hstamp := Historical.cityStamp_lastCityMatch (Historical.geoText l)
        Historical.cities (Historical.countyStamp l).1 cnty c hlast
      refine ⟨(cnty, cl), hmem, c, hcmem, hstr, ?_, ?_⟩
      · rw [Historical.processLead_fst]
        exact hstamp.1
      · rw [Historical.processLead_fst]
        exact hstamp.2

/-- Witness for C3 at a concrete lead: a lead whose text mentions the city
`quincy` is retained by the geography filter. -/
theorem c3_geography_filter_witness :
    (∃ l', l' ∈ Historical.filter_by_target_counties [{ title := some "Cafe in Quincy" }] ∧
        l'.title = ({ title := some "Cafe in Quincy" } : Lead).title ∧
        l'.description = ({ title := some "Cafe in Quincy" } : Lead).description) :=
  (c3_geography_filter.1 [{ title := some "Cafe in Quincy" }]
      { title := some "Cafe in Quincy" } (by simp)).mpr
    (Or.inr ⟨("Norfolk", ["quincy", "brookline", "weymouth", "needham", "milton", "braintree"]),
      by decide, "quincy", by decide, by decide⟩)

/-- The lead of the C4 counterexample: its text mentions a Middlesex city
(`cambridge`, the first city of the first county in table iteration order)
and a Norfolk city (`quincy`). -/
def leadC4 : Lead := { title := some "Cambridge and Quincy project" }

set_option maxRecDepth 4000 in
/-- C4 (counterexample): the claim says the first matching city in table
iteration order wins, which here would stamp `Middlesex`/`Cambridge`; the
code instead leaves the stamps of the last county with a matching city,
here `Norfolk`/`Quincy`, because the inner `break` leaves only the
per-county city list and later county matches overwrite the stamp. -/
theorem c4_multi_city_counterexample :
    Historical.filter_by_target_counties [leadC4]
      = [{ leadC4 with county := some "Norfolk", city := some "Quincy" }]
    ∧ findCity ["cambridge", "lowell", "newton", "somerville", "framingham",
        "waltham", "malden", "medford"] (Historical.geoText leadC4) = some "cambridge"
    ∧ Historical.lastCityMatch (Historical.geoText leadC4) Historical.cities
        = some ("Norfolk", "quincy") := by
  refine ⟨by decide, by decide, by decide⟩

/-- C4 (amended): when a lead's text matches cities of several configured
counties, the stamped `county`/`city` are those of the last county in table
iteration order that has a matching city (the first matching city within
that county's list, title-cased); each processed lead is appended to the
output at most once, so the output is never longer than the input. -/
theorem c4_multi_city_amended :
    (∀ (prev : List Lead) (l : Lead) (cnty c : String),
      Historical.lastCityMatch (Historical.geoText l) Historical.cities = some (cnty, c) →
        (Historical.processLead prev l).1.county = some cnty ∧
        (Historical.processLead prev l).1.city = some (pyTitle c))
    ∧ (∀ (prev : List Lead) (ls : List Lead),
        (Historical.countyGo prev ls).length ≤ ls.length) := by
  constructor
  · intro prev l cnty c h
    rw [Historical.processLead_fst]
    exact Historical.cityStamp_lastCityMatch _ _ _ _ _ h
  · intro prev ls
    induction ls generalizing prev with
    | nil => simp [Historical.countyGo]
    | cons a ls ih =>
      rw [Historical.countyGo]
      by_cases hr : (Historical.processLead prev a).2 = true
      · rw [if_pos hr]
        simpa using ih _
      · rw [if_neg hr]
        exact Nat.le_succ_of_le (ih _)

set_option maxRecDepth 4000 in
/-- Witness for C4 at the concrete multi-city lead. -/
theorem c4_multi_city_witness :
    (Historical.processLead [] leadC4).1.county = some "Norfolk" ∧
    (Historical.processLead [] leadC4).1.city = some (pyTitle "quincy") :=
  c4_multi_city_amended.1 [] leadC4 "Norfolk" "quincy" (by decide)

namespace Production

theorem sgnGo_error (q e : String) (post : List (String × Except String (List RssItem))) :
    ∀ (pre : List (String × Except String (List RssItem))) (acc : List Lead),
      sgnGo (pre ++ (q, Except.error e) :: post) acc = ((sgnGo pre acc).1, true) := by
  intro pre
  induction pre with
  | nil => intro acc; rfl
  | cons f rest ih =>
    intro acc
    rcases f with ⟨q', fe⟩
    cases fe with
    | ok items => exact ih _
    | error e' => rfl

theorem mem_filter_by_keywords {leads : List Lead} {keywords : List String}
    {v : Lead} :
    v ∈ filter_by_target_industries leads keywords ↔
      ∃ l ∈ leads, ∃ k, findKeyword keywords (productionText l) = some k ∧
        v = { l with matched_keyword := some k } := by
  induction leads with
  | nil => simp [filter_by_target_industries]
  | cons a ls ih =>
    rw [filter_by_target_industries]
    cases hf : findKeyword keywords (productionText a) with
    | some k =>
      constructor
      · intro h
        rcases List.mem_cons.mp h with rfl | h
        · exact ⟨a, List.mem_cons_self a ls, k, hf, rfl⟩
        · rcases ih.mp h with ⟨l, hl, k', h1, h2⟩
          exact ⟨l, List.mem_cons_of_mem a hl, k', h1, h2⟩
      · rintro ⟨l, hl, k', h1, h2⟩
        rcases List.mem_cons.mp hl with rfl | hl
        · rw [hf] at h1
          injection h1 with h1
          subst h1
          exact List.mem_cons.mpr (Or.inl h2)
        · exact List.mem_cons.mpr (Or.inr (ih.mpr ⟨l, hl, k', h1, h2⟩))
    | none =>
      rw [ih]
      constructor
      · rintro ⟨l, hl, k', h1, h2⟩
        exact ⟨l, List.mem_cons_of_mem a hl, k', h1, h2⟩
      · rintro ⟨l, hl, k', h1, h2⟩
        rcases List.mem_cons.mp hl with rfl | hl
        · rw [hf] at h1
          exact absurd h1 (by simp)
        · exact ⟨l, hl, k', h1, h2⟩

end Production

namespace Monitor

theorem mem_filter_by_industry {ds : List Lead} {d : Lead} :
    d ∈ filter_by_industry ds ↔
      d ∈ ds ∧ (findKeyword TARGET_INDUSTRIES (monitorText d)).isSome = true := by
  induction ds with
  | nil => simp [filter_by_industry]
  | cons a ds ih =>
    rw [filter_by_industry]
    by_cases hf : (findKeyword TARGET_INDUSTRIES (monitorText a)).isSome = true
    · rw [if_pos hf]
      constructor
      · intro h
        rcases List.mem_cons.mp h with rfl | h
        · exact ⟨List.mem_cons_self _ _, hf⟩
        · rcases ih.mp h with ⟨h1, h2⟩
          exact ⟨List.mem_cons_of_mem a h1, h2⟩
      · rintro ⟨h1, h2⟩
        rcases List.mem_cons.mp h1 with rfl | h1
        · exact List.mem_cons_self _ _
        · exact List.mem_cons_of_mem _ (ih.mpr ⟨h1, h2⟩)
    · rw [if_neg hf]
      rw [ih]
      constructor
      · rintro ⟨h1, h2⟩
        exact ⟨List.mem_cons_of_mem a h1, h2⟩
      · rintro ⟨h1, h2⟩
        rcases List.mem_cons.mp h1 with rfl | h1
        · exact absurd h2 hf
        · exact ⟨h1, h2⟩

end Monitor

/-- C1 (amended): a raised exception inside a collector is caught and never
escapes, a warning is reported, and the other source is still collected —
but the failing collector contributes the leads gathered before the
failure, which need not be zero: `search_google_news` returns its partial
accumulation (aborting its remaining queries), and `search_ma_permits`
loses only the failing city's permits (one warning per failing city). -/
theorem c1_partial_failure_amended :
    (∀ (pre post : List (String × Except String (List Production.RssItem))) (q e : String),
      Production.search_google_news (pre ++ (q, Except.error e) :: post)
        = ((Production.search_google_news pre).1, true))
    ∧ (∀ (q e : String) (oshaResp : Option (List Production.OshaDiv)),
        Production.run_full_scan [(q, Except.error e)] oshaResp
          = Production.filter_by_target_industries
              (Production.search_osha_data "MA" oshaResp) Production.target_keywords)
    ∧ (∀ (pre post : List (String × Except String (List Lead))) (c e : String),
        (Monitor.search_ma_permits (pre ++ (c, Except.error e) :: post)).1
          = (Monitor.search_ma_permits (pre ++ post)).1
        ∧ (Monitor.search_ma_permits (pre ++ (c, Except.error e) :: post)).2
          = (Monitor.search_ma_permits (pre ++ post)).2 + 1) := by
  refine ⟨?_, ?_, ?_⟩
  · intro pre post q e
    exact Production.sgnGo_error q e post pre []
  · intro q e oshaResp
    rfl
  · intro pre post c e
    induction pre with
    | nil => exact ⟨rfl, rfl⟩
    | cons f rest ih =>
      rcases f with ⟨c', fe⟩
      cases fe with
      | ok ps =>
        refine ⟨?_, ?_⟩
        · show ps ++ (Monitor.search_ma_permits (rest ++ (c, Except.error e) :: post)).1
              = ps ++ (Monitor.search_ma_permits (rest ++ post)).1
          rw [ih.1]
        · show (Monitor.search_ma_permits (rest ++ (c, Except.error e) :: post)).2
              = (Monitor.search_ma_permits (rest ++ post)).2 + 1
          exact ih.2
      | error e' =>
        refine ⟨?_, ?_⟩
        · show (Monitor.search_ma_permits (rest ++ (c, Except.error e) :: post)).1
              = (Monitor.search_ma_permits (rest ++ post)).1
          exact ih.1
        · show (Monitor.search_ma_permits (rest ++ (c, Except.error e) :: post)).2 + 1
              = (Monitor.search_ma_permits (rest ++ post)).2 + 1 + 1
          rw [ih.2]

/-- The successful first fetch of the C1 counterexample. -/
def itC1 : Production.RssItem := { title := some "New Restaurant Opens in Cambridge" }

/-- The fetch outcomes of the C1 counterexample: the first query succeeds
with one item, the second raises a network exception. -/
def fetchesC1 : List (String × Except String (List Production.RssItem)) :=
  [("new restaurant opening Massachusetts", Except.ok [itC1]),
   ("restaurant renovation Massachusetts", Except.error "network timeout")]

/-- C1 (counterexample): a run where the Google News collector raises on
its second query.  The collector reports a warning, but it contributes the
one lead fetched before the failure — not zero leads as the claim states. -/
theorem c1_partial_failure_counterexample :
    (Production.search_google_news fetchesC1).1
        = [Production.newsLead "new restaurant opening Massachusetts" itC1]
    ∧ (Production.search_google_news fetchesC1).1 ≠ []
    ∧ (Production.search_google_news fetchesC1).2 = true := by
  exact ⟨rfl, by decide, rfl⟩

theorem industryText_mk (l : Lead) (k : Option String) :
    Historical.industryText { l with matched_keyword := k } = Historical.industryText l := rfl

theorem productionText_mk (l : Lead) (k : Option String) :
    Production.productionText { l with matched_keyword := k }
      = Production.productionText l := rfl

theorem mk_mk (l : Lead) (v w : Option String) :
    ({ ({ l with matched_keyword := v } : Lead) with matched_keyword := w } : Lead)
      = { l with matched_keyword := w } := rfl

theorem mk_self (l : Lead) :
    ({ l with matched_keyword := l.matched_keyword } : Lead) = l := rfl

/-- C2 (amended): in each filter a lead is kept iff some configured keyword
is a case-insensitive substring of its concatenated text, and the two
`filter_by_target_industries` variants stamp `matched_keyword` with the
first matching keyword in configured order; but `LeadMonitor.filter_by_industry`
keeps its items unchanged and never stamps `matched_keyword`. -/
theorem c2_keyword_matcher_amended :
    (∀ (leads : List Lead) (l' : Lead), l' ∈ Historical.filter_by_target_industries leads →
      ∃ k pre post, Historical.TARGET_INDUSTRIES = pre ++ k :: post ∧
        strIn (pyLower k) (Historical.industryText l') = true ∧
        (∀ k' ∈ pre, strIn (pyLower k') (Historical.industryText l') = false) ∧
        l'.matched_keyword = some k)
    ∧ (∀ (leads : List Lead) (l : Lead), l ∈ leads →
        ((∃ k ∈ Historical.TARGET_INDUSTRIES,
            strIn (pyLower k) (Historical.industryText l) = true) ↔
          ∃ l' ∈ Historical.filter_by_target_industries leads,
            ({ l' with matched_keyword := l.matched_keyword } : Lead) = l))
    ∧ (∀ (ds : List Lead) (d : Lead), d ∈ Monitor.filter_by_industry ds ↔
        d ∈ ds ∧ ∃ k ∈ Monitor.TARGET_INDUSTRIES,
          strIn (pyLower k) (Monitor.monitorText d) = true)
    ∧ (∀ (keywords : List String) (leads : List Lead) (l' : Lead),
        l' ∈ Production.filter_by_target_industries leads keywords →
        ∃ k pre post, keywords = pre ++ k :: post ∧
          strIn (pyLower k) (Production.productionText l') = true ∧
          (∀ k' ∈ pre, strIn (pyLower k') (Production.productionText l') = false) ∧
          l'.matched_keyword = some k) := by
  refine ⟨?_, ?_, ?_, ?_⟩
  · intro leads l' h
    rcases Historical.mem_filter_by_target_industries.mp h with ⟨l, _, k, hk, rfl⟩
    rcases findKeyword_first hk with ⟨pre, post, he, h1, h2⟩
    refine ⟨k, pre, post, he, ?_, ?_, rfl⟩
    · rw [industryText_mk]
      exact h1
    · rw [industryText_mk]
      exact h2
  · intro leads l hl
    constructor
    · intro h
      have hs : (findKeyword Historical.TARGET_INDUSTRIES
          (Historical.industryText l)).isSome = true := findKeyword_isSome.mpr h
      rcases Option.isSome_iff_exists.mp hs with ⟨k, hk⟩
      refine ⟨{ l with matched_keyword := some k },
        Historical.mem_filter_by_target_industries.mpr ⟨l, hl, k, hk, rfl⟩, ?_⟩
      rw [mk_mk, mk_self]
    · rintro ⟨l', hl', heq⟩
      rcases Historical.mem_filter_by_target_industries.mp hl' with ⟨l₀, _, k, hk, rfl⟩
      rcases findKeyword_some_mem hk with ⟨h1, h2⟩
      refine ⟨k, h1, ?_⟩
      have : Historical.industryText l = Historical.industryText l₀ := by
        rw [← heq, industryText_mk, industryText_mk]
      rw [this]
      exact h2
  · intro ds d
    rw [Monitor.mem_filter_by_industry, findKeyword_isSome]
  · intro keywords leads l' h
    rcases Production.mem_filter_by_keywords.mp h with ⟨l, _, k, hk, rfl⟩
    rcases findKeyword_first hk with ⟨pre, post, he, h1, h2⟩
    refine ⟨k, pre, post, he, ?_, ?_, rfl⟩
    · rw [productionText_mk]
      exact h1
    · rw [productionText_mk]
      exact h2

/-- The monitor item of the C2 counterexample. -/
def itemC2 : Lead := { name := some "Sunrise Restaurant" }

/-- C2 (counterexample): `LeadMonitor.filter_by_industry` keeps the item —
whose first matching keyword is `restaurant` — but returns it unchanged:
no `matched_keyword` stamp is recorded, contradicting "every kept lead is
stamped with it". -/
theorem c2_keyword_matcher_counterexample :
    Monitor.filter_by_industry [itemC2] = [itemC2]
    ∧ findKeyword Monitor.TARGET_INDUSTRIES (Monitor.monitorText itemC2) = some "restaurant"
    ∧ itemC2.matched_keyword ≠ some "restaurant" := by
  exact ⟨rfl, rfl, by decide⟩

/-- The stamped lead of the C2 witness. -/
def leadC2w : Lead := { title := some "new hotel", matched_keyword := some "hotel" }

/-- Witness for C2 at a concrete lead kept by the historical filter. -/
theorem c2_keyword_matcher_witness :
    ∃ k pre post, Historical.TARGET_INDUSTRIES = pre ++ k :: post ∧
      strIn (pyLower k) (Historical.industryText leadC2w) = true ∧
      (∀ k' ∈ pre, strIn (pyLower k') (Historical.industryText leadC2w) = false) ∧
      leadC2w.matched_keyword = some k := by
  exact c2_keyword_matcher_amended.1 [{ title := some "new hotel" }] leadC2w (by decide)

/-- C6 (confirmed): whenever email delivery fails — the Gmail app password
is absent, or the SMTP transport raises — the report is written to the
backup file with exactly the rendered HTML string that would have been
delivered; and whatever is persisted is always byte-identical to the
delivery payload. -/
theorem c6_delivery_fallback :
    (∀ (pw : Option String) (smtp : String → Except String Unit) (html : String),
      (pw = none ∨ ∃ p e, pw = some p ∧ smtp html = Except.error e) →
        Monitor.send_email pw smtp html = Monitor.EmailOutcome.savedToFile html)
    ∧ (∀ (pw : Option String) (smtp : String → Except String Unit) (html c : String),
        Monitor.send_email pw smtp html = Monitor.EmailOutcome.savedToFile c → c = html) := by
  constructor
  · rintro pw smtp html (rfl | ⟨p, e, rfl, hs⟩)
    · rfl
    · unfold Monitor.send_email
      rw [hs]
  · intro pw smtp html c h
    unfold Monitor.send_email at h
    cases pw with
    | none =>
      injection h with h
      exact h.symm
    | some p =>
      cases hs : smtp html with
      | ok u =>
        rw [hs] at h
        exact absurd h (by simp)
      | error e =>
        rw [hs] at h
        injection h with h
        exact h.symm

/-- Witness for C6: with the credential absent, the concrete report string
is persisted unchanged. -/
theorem c6_delivery_fallback_witness :
    Monitor.send_email none (fun _ => Except.ok ()) "<h1>report</h1>"
      = Monitor.EmailOutcome.savedToFile "<h1>report</h1>" :=
  c6_delivery_fallback.1 none (fun _ => Except.ok ()) "<h1>report</h1>" (Or.inl rfl)

/-- Final state of the whole input list of `filter_by_target_counties`
(county/city stamps are applied in place whether or not a record is
appended to the output, and are independent of the dedup bookkeeping). -/
def Historical.geoInputAfter (leads : List Lead) : List Lead :=
  leads.map Historical.geoFinal

/-- C8 (amended): the filter stages do mutate the input records in place —
the industry filters rewrite exactly the `matched_keyword` field of each
matching lead (non-matching leads are untouched), and the geography filter
rewrites exactly the `county`/`city` fields (and leaves a lead untouched
when neither a county name nor a city matches) — while each input list
keeps its length and order and every other field of every record. -/
theorem c8_no_mutation_amended :
    (∀ leads : List Lead,
      (Historical.industryInputAfter leads).length = leads.length)
    ∧ (∀ l : Lead,
        ({ Historical.stampIndustry l with matched_keyword := l.matched_keyword } : Lead) = l)
    ∧ (∀ l : Lead, findKeyword Historical.TARGET_INDUSTRIES (Historical.industryText l) = none →
        Historical.stampIndustry l = l)
    ∧ (∀ (prev : List Lead) (l : Lead),
        ({ (Historical.processLead prev l).1 with county := l.county, city := l.city } : Lead) = l)
    ∧ (∀ (keywords : List String) (leads : List Lead),
        (Production.productionInputAfter keywords leads).length = leads.length)
    ∧ (∀ (keywords : List String) (l : Lead),
        ({ Production.stampProduction keywords l with
            matched_keyword := l.matched_keyword } : Lead) = l)
    ∧ (∀ leads : List Lead,
        (Historical.geoInputAfter leads).length = leads.length)
    ∧ (∀ l : Lead, findKeyword Historical.TARGET_COUNTIES (Historical.geoText l) = none →
        Historical.anyCityT (Historical.geoText l) Historical.cities = false →
        Historical.geoFinal l = l)
    ∧ (∀ (keywords : List String) (l : Lead),
        findKeyword keywords (Production.productionText l) = none →
        Production.stampProduction keywords l = l) := by
  refine ⟨?_, ?_, ?_, ?_, ?_, ?_, ?_, ?_, ?_⟩
  · intro leads
    exact List.length_map leads Historical.stampIndustry
  · intro l
    unfold Historical.stampIndustry
    cases findKeyword Historical.TARGET_INDUSTRIES (Historical.industryText l) <;> rfl
  · intro l h
    unfold Historical.stampIndustry
    rw [h]
  · intro prev l
    rw [Historical.processLead_fst]
    exact Historical.geoFinal_changes l
  · intro keywords leads
    exact List.length_map leads (Production.stampProduction keywords)
  · intro keywords l
    unfold Production.stampProduction
    cases findKeyword keywords (Production.productionText l) <;> rfl
  · intro leads
    exact List.length_map leads Historical.geoFinal
  · intro l h1 h2
    unfold Historical.geoFinal
    rw [Historical.countyStamp_fst_of_none h1]
    exact Historical.cityStamp_id _ _ _ h2
  · intro keywords l h
    unfold Production.stampProduction
    rw [h]

/-- The lead of the C8 counterexample. -/
def leadC8 : Lead := { title := some "new restaurant" }

/-- C8 (counterexample): after the historical industry filter runs, the
record inside the input list has been mutated — its `matched_keyword` key
now holds `restaurant` — so the stage does not leave the input collection
unchanged as the claim states. -/
theorem c8_no_mutation_counterexample :
    Historical.industryInputAfter [leadC8]
        = [{ leadC8 with matched_keyword := some "restaurant" }]
    ∧ Historical.industryInputAfter [leadC8] ≠ [leadC8] := by
  exact ⟨rfl, by decide⟩

/-- Witness for C8: a lead with no matching keyword is left untouched. -/
theorem c8_no_mutation_witness :
    Historical.stampIndustry { title := some "roadway bridge repair" }
      = { title := some "roadway bridge repair" } :=
  c8_no_mutation_amended.2.2.1 { title := some "roadway bridge repair" } (by decide)

/-- C10 (confirmed): for any response, `search_osha_data` returns at most
20 incidents, and every returned incident carries source `OSHA`, type
`Safety Incident`, priority `High`, the state argument, and a description
containing the substring `MA` or `Massachusetts` (case-sensitively);
incidents whose text contains neither substring are excluded. -/
theorem c10_osha_postcondition :
    ∀ (st : String) (resp : Option (List Production.OshaDiv)),
      (Production.search_osha_data st resp).length ≤ 20 ∧
      ∀ inc ∈ Production.search_osha_data st resp,
        inc.source = some "OSHA" ∧ inc.type = some "Safety Incident" ∧
        inc.priority = some "High" ∧ inc.state = some st ∧
        ∃ t, inc.description = some t ∧ (strIn "MA" t || strIn "Massachusetts" t) = true := by
  intro st resp
  cases resp with
  | none => exact ⟨by simp [Production.search_osha_data], by simp [Production.search_osha_data]⟩
  | some divs =>
    constructor
    · calc (Production.search_osha_data st (some divs)).length
          ≤ (divs.take 20).length := List.length_filterMap_le _ _
        _ ≤ 20 := by simp [List.length_take]
    · intro inc hmem
      unfold Production.search_osha_data at hmem
      rw [List.mem_filterMap] at hmem
      rcases hmem with ⟨d, _, hd⟩
      by_cases hcond : (strIn "MA" d.text || strIn "Massachusetts" d.text) = true
      · rw [if_pos hcond] at hd
        injection hd with hd
        subst hd
        exact ⟨rfl, rfl, rfl, rfl, d.text, rfl, hcond⟩
      · rw [if_neg hcond] at hd
        exact absurd hd (by simp)

/-- The incident div of the C10 witness. -/
def divC10 : Production.OshaDiv := { strong := some " Acme Corp ", text := "Worker fell in Boston, MA" }

/-- Witness for C10 at a concrete successful response. -/
theorem c10_osha_postcondition_witness :
    (Production.oshaIncident "MA" divC10).source = some "OSHA" ∧
    (Production.oshaIncident "MA" divC10).type = some "Safety Incident" ∧
    (Production.oshaIncident "MA" divC10).priority = some "High" ∧
    (Production.oshaIncident "MA" divC10).state = some "MA" ∧
    ∃ t, (Production.oshaIncident "MA" divC10).description = some t ∧
      (strIn "MA" t || strIn "Massachusetts" t) = true := by
  exact (c10_osha_postcondition "MA" (some [divC10])).2
    (Production.oshaIncident "MA" divC10) (by decide)

/-- C9 (amended): every OSHA safety-incident lead carries priority High at
creation (`search_osha_data`), the slip/fall filter stamps retained
incidents High, the production industry filter preserves each kept lead's
priority, and the CSV export writes High exactly for OSHA-incident rows and
Medium for permit rows; Google News leads, however, are created with no
priority key at all — never High, but also never assigned Medium or Low. -/
theorem c9_priority_amended :
    (∀ (st : String) (resp : Option (List Production.OshaDiv)) (inc : Lead),
      inc ∈ Production.search_osha_data st resp → inc.priority = some "High")
    ∧ (∀ (incidents : List Lead) (l' : Lead),
        l' ∈ OSHAScraper.filter_slip_fall_incidents incidents → l'.priority = some "High")
    ∧ (∀ (keywords : List String) (leads : List Lead) (l' : Lead),
        l' ∈ Production.filter_by_target_industries leads keywords →
          ∃ l ∈ leads, l'.priority = l.priority)
    ∧ (∀ (today : String) (permits osha_incidents : List Lead) (r : Monitor.CsvRow),
        r ∈ Monitor.save_to_csv today permits osha_incidents →
          (r.type = "OSHA Incident" ∧ r.priority = "High") ∨
          (r.type = "Permit" ∧ r.priority = "Medium"))
    ∧ (∀ (q : String) (it : Production.RssItem), (Production.newsLead q it).priority = none) := by
  refine ⟨?_, ?_, ?_, ?_, ?_⟩
  · intro st resp inc hmem
    cases resp with
    | none => simp [Production.search_osha_data] at hmem
    | some divs =>
      unfold Production.search_osha_data at hmem
      rw [List.mem_filterMap] at hmem
      rcases hmem with ⟨d, _, hd⟩
      by_cases hcond : (strIn "MA" d.text || strIn "Massachusetts" d.text) = true
      · rw [if_pos hcond] at hd
        injection hd with hd
        subst hd
        rfl
      · rw [if_neg hcond] at hd
        exact absurd hd (by simp)
  · intro incidents l' hmem
    induction incidents with
    | nil => simp [OSHAScraper.filter_slip_fall_incidents] at hmem
    | cons i is' ih =>
      rw [OSHAScraper.filter_slip_fall_incidents] at hmem
      by_cases hc : OSHAScraper.slip_fall_keywords.any
          (fun k => strIn k (OSHAScraper.incidentText i)) = true
      · rw [if_pos hc] at hmem
        rcases List.mem_cons.mp hmem with rfl | hmem
        · rfl
        · exact ih hmem
      · rw [if_neg hc] at hmem
        exact ih hmem
  · intro keywords leads l' hmem
    rcases Production.mem_filter_by_keywords.mp hmem with ⟨l, hl, k, _, rfl⟩
    exact ⟨l, hl, rfl⟩
  · intro today permits osha_incidents r hmem
    unfold Monitor.save_to_csv at hmem
    rcases List.mem_append.mp hmem with h | h
    · rcases List.mem_map.mp h with ⟨p, _, rfl⟩
      exact Or.inr ⟨rfl, rfl⟩
    · rcases List.mem_map.mp h with ⟨i, _, rfl⟩
      exact Or.inl ⟨rfl, rfl⟩
  · intro q it
    rfl

/-- The news item of the C9 counterexample. -/
def itC9 : Production.RssItem := { title := some "New Restaurant Opens" }

set_option maxRecDepth 4000 in
/-- C9 (counterexample): a Google News lead flows through the production
pipeline carrying no priority key at all — the pipeline output for a
successful news fetch holds the stamped news lead with `priority = none`,
which is neither Medium nor Low, contradicting "leads from other sources
are assigned Medium or Low". -/
theorem c9_priority_counterexample :
    Production.run_full_scan [("new business opening Massachusetts", Except.ok [itC9])] none
      = [{ Production.newsLead "new business opening Massachusetts" itC9 with
            matched_keyword := some "restaurant" }]
    ∧ (Production.newsLead "new business opening Massachusetts" itC9).priority = none
    ∧ (none : Option String) ≠ some "Medium"
    ∧ (none : Option String) ≠ some "Low" := by
  exact ⟨by decide, rfl, by decide, by decide⟩

/-- Witness for C9: a concrete permit row is exported with priority Medium. -/
theorem c9_priority_witness :
    ((Monitor.permitRow "2025-10-12" { name := some "Joe Cafe" }).type = "OSHA Incident" ∧
      (Monitor.permitRow "2025-10-12" { name := some "Joe Cafe" }).priority = "High") ∨
    ((Monitor.permitRow "2025-10-12" { name := some "Joe Cafe" }).type = "Permit" ∧
      (Monitor.permitRow "2025-10-12" { name := some "Joe Cafe" }).priority = "Medium") := by
  exact c9_priority_amended.2.2.2.1 "2025-10-12" [{ name := some "Joe Cafe" }] []
    (Monitor.permitRow "2025-10-12" { name := some "Joe Cafe" }) (by decide)

theorem containsStr_appendL (x : String) {n y : String} (h : containsStr n y) :
    containsStr n (x ++ y) := by
  rcases h with ⟨s, t, e⟩
  refine ⟨x.data ++ s, t, ?_⟩
  rw [String.data_append, ← e]
  simp

theorem containsStr_glue (a b t : String) : containsStr (a ++ b) (a ++ (b ++ t)) := by
  refine ⟨[], t.data, ?_⟩
  simp [String.data_append]

theorem containsStr_left (n t : String) : containsStr n (n ++ t) := by
  refine ⟨[], t.data, ?_⟩
  simp [String.data_append]

theorem containsStr_htmlConcat (f : Lead → String) {l : Lead} :
    ∀ {ls : List Lead}, l ∈ ls → containsStr (f l) (Production.htmlConcat f ls) := by
  intro ls
  induction ls with
  | nil => intro h; exact absurd h (List.not_mem_nil l)
  | cons a as ih =>
    intro h
    rcases List.mem_cons.mp h with rfl | h
    · exact containsStr_left (f l) (Production.htmlConcat f as)
    · exact containsStr_appendL (f a) (ih h)

/-- C7 (amended): in `LeadMonitor._format_permit_html` the Business,
Address, City, County, Project Type, Permit Date, Industry and Estimated
Value fields are always emitted with the placeholder `N/A` when missing,
but the Phone and Website lines are conditional — omitted entirely when the
field is missing or empty, emitted exactly when a non-empty value is
present.  In `format_leads_for_email` each news entry renders only title,
description, date and matched keyword (each with an `N/A` fallback) and the
link (fallback `#`), each OSHA entry renders only the company (fallback
`Unknown Business`) and description (fallback `N/A`), every other lead
field being omitted from those entries; each lead of the matching source
gets its full entry in the corresponding section. -/
theorem c7_placeholder_amended (p : Lead) :
    (p.name = none → containsStr "Business:</span> N/A" (Monitor.formatPermitHtml p))
    ∧ (p.address = none → containsStr "Address:</span> N/A" (Monitor.formatPermitHtml p))
    ∧ (p.city = none → containsStr "City:</span> N/A" (Monitor.formatPermitHtml p))
    ∧ (p.county = none → containsStr "N/A County" (Monitor.formatPermitHtml p))
    ∧ (p.project_type = none → containsStr "Project Type:</span> N/A" (Monitor.formatPermitHtml p))
    ∧ (p.date = none → containsStr "Permit Date:</span> N/A" (Monitor.formatPermitHtml p))
    ∧ (p.industry = none → containsStr "Industry:</span> N/A" (Monitor.formatPermitHtml p))
    ∧ (p.value = none → containsStr "Estimated Value:</span> $N/A" (Monitor.formatPermitHtml p))
    ∧ (truthy p.phone = false → Monitor.phoneDiv p = "")
    ∧ (truthy p.website = false → Monitor.websiteDiv p = "")
    ∧ (∀ s, p.phone = some s → s.isEmpty = false →
        containsStr ("Phone:</span> " ++ s) (Monitor.formatPermitHtml p))
    ∧ (p.title = none →
        containsStr "<div class=\"lead-title\">N/A" (Production.newsLeadHtml p))
    ∧ (p.description = none →
        containsStr "Description:</span> N/A" (Production.newsLeadHtml p))
    ∧ (p.date = none → containsStr "Date:</span> N/A" (Production.newsLeadHtml p))
    ∧ (p.matched_keyword = none →
        containsStr "Industry Match:</span> N/A" (Production.newsLeadHtml p))
    ∧ (p.url = none → containsStr "href=\"#" (Production.newsLeadHtml p))
    ∧ (p.company = none →
        containsStr "<div class=\"lead-title\">Unknown Business" (Production.oshaLeadHtml p))
    ∧ (p.description = none →
        containsStr "Description:</span> N/A" (Production.oshaLeadHtml p))
    ∧ (∀ leads : List Lead, p ∈ leads → p.source = some "Google News" →
        containsStr (Production.newsLeadHtml p) (Production.newsSection leads))
    ∧ (∀ leads : List Lead, p ∈ leads → p.source = some "OSHA" →
        containsStr (Production.oshaLeadHtml p) (Production.oshaSection leads)) := by
  refine ⟨?_, ?_, ?_, ?_, ?_, ?_, ?_, ?_, ?_, ?_, ?_, ?_, ?_, ?_, ?_, ?_, ?_, ?_, ?_, ?_⟩
  · intro h
    rw [(by decide : ("Business:</span> N/A" : String) = "Business:</span> " ++ "N/A")]
    simp only [Monitor.formatPermitHtml, h, Option.getD_none, String.append_assoc]
    repeat first
      | exact containsStr_glue _ _ _
      | apply containsStr_appendL
  · intro h
    rw [(by decide : ("Address:</span> N/A" : String) = "Address:</span> " ++ "N/A")]
    simp only [Monitor.formatPermitHtml, h, Option.getD_none, String.append_assoc]
    repeat first
      | exact containsStr_glue _ _ _
      | apply containsStr_appendL
  · intro h
    rw [(by decide : ("City:</span> N/A" : String) = "City:</span> " ++ "N/A")]
    simp only [Monitor.formatPermitHtml, h, Option.getD_none, String.append_assoc]
    repeat first
      | exact containsStr_glue _ _ _
      | apply containsStr_appendL
  · intro h
    rw [(by decide : ("N/A County" : String) = "N/A" ++ " County")]
    simp only [Monitor.formatPermitHtml, h, Option.getD_none, String.append_assoc]
    repeat first
      | exact containsStr_glue _ _ _
      | apply containsStr_appendL
  · intro h
    rw [(by decide : ("Project Type:</span> N/A" : String) = "Project Type:</span> " ++ "N/A")]
    simp only [Monitor.formatPermitHtml, h, Option.getD_none, String.append_assoc]
    repeat first
      | exact containsStr_glue _ _ _
      | apply containsStr_appendL
  · intro h
    rw [(by decide : ("Permit Date:</span> N/A" : String) = "Permit Date:</span> " ++ "N/A")]
    simp only [Monitor.formatPermitHtml, h, Option.getD_none, String.append_assoc]
    repeat first
      | exact containsStr_glue _ _ _
      | apply containsStr_appendL
  · intro h
    rw [(by decide : ("Industry:</span> N/A" : String) = "Industry:</span> " ++ "N/A")]
    simp only [Monitor.formatPermitHtml, h, Option.getD_none, String.append_assoc]
    repeat first
      | exact containsStr_glue _ _ _
      | apply containsStr_appendL
  · intro h
    rw [(by decide :
      ("Estimated Value:</span> $N/A" : String) = "Estimated Value:</span> $" ++ "N/A")]
    simp only [Monitor.formatPermitHtml, h, Option.getD_none, String.append_assoc]
    repeat first
      | exact containsStr_glue _ _ _
      | apply containsStr_appendL
  · intro h
    simp [Monitor.phoneDiv, h]
  · intro h
    simp [Monitor.websiteDiv, h]
  · intro s h hs
    simp only [Monitor.formatPermitHtml, Monitor.phoneDiv, truthy, h, hs, Option.getD_some,
      Bool.not_false, if_true, String.append_assoc]
    repeat first
      | exact containsStr_glue _ _ _
      | apply containsStr_appendL
  · intro h
    rw [(by decide :
      ("<div class=\"lead-title\">N/A" : String) = "<div class=\"lead-title\">" ++ "N/A")]
    simp only [Production.newsLeadHtml, h, Option.getD_none, String.append_assoc]
    repeat first
      | exact containsStr_glue _ _ _
      | apply containsStr_appendL
  · intro h
    rw [(by decide : ("Description:</span> N/A" : String) = "Description:</span> " ++ "N/A")]
    simp only [Production.newsLeadHtml, h, Option.getD_none, String.append_assoc]
    repeat first
      | exact containsStr_glue _ _ _
      | apply containsStr_appendL
  · intro h
    rw [(by decide : ("Date:</span> N/A" : String) = "Date:</span> " ++ "N/A")]
    simp only [Production.newsLeadHtml, h, Option.getD_none, String.append_assoc]
    repeat first
      | exact containsStr_glue _ _ _
      | apply containsStr_appendL
  · intro h
    rw [(by decide :
      ("Industry Match:</span> N/A" : String) = "Industry Match:</span> " ++ "N/A")]
    simp only [Production.newsLeadHtml, h, Option.getD_none, String.append_assoc]
    repeat first
      | exact containsStr_glue _ _ _
      | apply containsStr_appendL
  · intro h
    rw [(by decide : ("href=\"#" : String) = "href=\"" ++ "#")]
    simp only [Production.newsLeadHtml, h, Option.getD_none, String.append_assoc]
    repeat first
      | exact containsStr_glue _ _ _
      | apply containsStr_appendL
  · intro h
    rw [(by decide : ("<div class=\"lead-title\">Unknown Business" : String)
      = "<div class=\"lead-title\">" ++ "Unknown Business")]
    simp only [Production.oshaLeadHtml, h, Option.getD_none, String.append_assoc]
    repeat first
      | exact containsStr_glue _ _ _
      | apply containsStr_appendL
  · intro h
    rw [(by decide : ("Description:</span> N/A" : String) = "Description:</span> " ++ "N/A")]
    simp only [Production.oshaLeadHtml, h, Option.getD_none, String.append_assoc]
    repeat first
      | exact containsStr_glue _ _ _
      | apply containsStr_appendL
  · intro leads hmem hsrc
    unfold Production.newsSection
    apply containsStr_appendL
    have hf : p ∈ leads.filter (fun l => decide (l.source = some "Google News")) :=
      List.mem_filter.mpr ⟨hmem, by simp [hsrc]⟩
    cases hfil : leads.filter (fun l => decide (l.source = some "Google News")) with
    | nil =>
      rw [hfil] at hf
      simp at hf
    | cons a as =>
      rw [hfil] at hf
      exact containsStr_htmlConcat Production.newsLeadHtml hf
  · intro leads hmem hsrc
    unfold Production.oshaSection
    have hf : p ∈ leads.filter (fun l => decide (l.source = some "OSHA")) :=
      List.mem_filter.mpr ⟨hmem, by simp [hsrc]⟩
    cases hfil : leads.filter (fun l => decide (l.source = some "OSHA")) with
    | nil =>
      rw [hfil] at hf
      simp at hf
    | cons a as =>
      rw [hfil] at hf
      exact containsStr_htmlConcat Production.oshaLeadHtml hf

/-- The permit of the C7 counterexample: fully populated except `phone` and
`website`. -/
def permitC7 : Lead :=
  { name := some "Joe Cafe", address := some "1 Main St", city := some "Quincy",
    county := some "Norfolk", project_type := some "Renovation",
    date := some "2025-01-02", industry := some "restaurant", value := some "50000" }

/-- The news lead of the C7 counterexample: it carries city and phone
values that the news entry renderer never emits. -/
def newsC7 : Lead :=
  { source := some "Google News", title := some "New Cafe Opens",
    city := some "Quincy", phone := some "555-1234" }

set_option maxRecDepth 8000 in
/-- C7 (counterexample): for a permit with no phone,
`_format_permit_html` renders no `Phone` field at all — the field is
omitted, not rendered with an `N/A` placeholder as the claim states; and
the `format_leads_for_email` news entry for a lead with a city and a phone
emits neither field (no label, no value, no placeholder). -/
theorem c7_placeholder_counterexample :
    permitC7.phone = none
    ∧ ¬ containsStr "Phone" (Monitor.formatPermitHtml permitC7)
    ∧ containsStr "Business:</span> Joe Cafe" (Monitor.formatPermitHtml permitC7)
    ∧ ¬ containsStr "Phone" (Production.newsLeadHtml newsC7)
    ∧ ¬ containsStr "555-1234" (Production.newsLeadHtml newsC7)
    ∧ ¬ containsStr "Quincy" (Production.newsLeadHtml newsC7) := by
  exact ⟨rfl, by decide, by decide, by decide, by decide, by decide⟩

/-- Witness for C7: the all-missing permit renders every unconditional
field with the `N/A` placeholder. -/
theorem c7_placeholder_witness :
    containsStr "Business:</span> N/A" (Monitor.formatPermitHtml { }) :=
  (c7_placeholder_amended { }).1 rfl
